import Mathlib

/-!
Verification of the `ShortwavDSP::WavPlayer` sample-playback engine
(`src/dsp/wav-player.h`) against its natural-language specification.

The engine is embedded shallowly:
* C++ `float`/`double` values are modelled as exact rationals (`ℚ`);
  every arithmetic step below mirrors the source expression symbolically.
* machine integers are modelled as `ℕ`/`ℤ` with explicit wraparound
  (`% 2 ^ 64` for `size_t`, two's-complement decoding for byte fields)
  exactly where the source can overflow.
* byte buffers (memory buffers and file contents) are `List ℕ` with each
  entry one byte; `std::memcpy` of a little-endian field is modelled as the
  positional sum of its bytes.
* the fallible load paths return the error code together with the resulting
  player state, so that "a failed load leaves the state untouched" is a
  provable statement rather than a modelling artifact.
-/

namespace ShortwavDSP

/-- Error codes for WAV operations (`enum class WavError`). -/
inductive WavError : Type
  | None
  | FileNotFound
  | InvalidFormat
  | UnsupportedFormat
  | CorruptedData
  | OutOfMemory
  | ReadError
  | InvalidState
  | InvalidParameter
  deriving DecidableEq, Repr

/-- Interpolation quality settings (`enum class InterpolationQuality`). -/
inductive InterpolationQuality : Type
  | None
  | Linear
  | Cubic
  deriving DecidableEq, Repr

/-- Playback state (`enum class PlaybackState`). -/
inductive PlaybackState : Type
  | Stopped
  | Playing
  | Paused
  deriving DecidableEq, Repr

/-- Loop mode settings (`enum class LoopMode`). -/
inductive LoopMode : Type
  | Off
  | Forward
  | PingPong
  deriving DecidableEq, Repr

namespace detail

/-- Models `detail::wavClamp`: `std::max(minVal, std::min(maxVal, x))`. -/
def wavClamp (x minVal maxVal : ℚ) : ℚ :=
  max minVal (min maxVal x)

/-- Models `detail::uint8ToFloat`: 8-bit WAV is unsigned, centered at 128. -/
def uint8ToFloat (sample : ℕ) : ℚ :=
  ((sample : ℚ) - 128) / 128

/-- Models `detail::int16ToFloat`. -/
def int16ToFloat (sample : ℤ) : ℚ :=
  (sample : ℚ) / 32768

/-- Models `detail::int24ToFloat`: 24-bit is stored as 3 bytes, little-endian, signed.
`int32_t value = b0 | (b1 << 8) | (b2 << 16)` assembles disjoint byte lanes, so
for byte inputs it equals the positional sum used here.  The sign extension
`if (value & 0x800000) value |= 0xFF000000` turns the two's-complement int32
into `value - 2^24` exactly when bit 23 is set, i.e. when `2^23 ≤ value`. -/
def int24ToFloat (b0 b1 b2 : ℕ) : ℚ :=
  let value : ℕ := b0 + b1 * 256 + b2 * 65536
  let signed : ℤ := if 8388608 ≤ value then (value : ℤ) - 16777216 else (value : ℤ)
  (signed : ℚ) / 8388608

/-- Models `detail::int32ToFloat`: divide by `2^31`. -/
def int32ToFloat (sample : ℤ) : ℚ :=
  (sample : ℚ) / 2147483648

/-- Models `detail::cubicInterpolate` (Hermite spline), coefficient for coefficient. -/
def cubicInterpolate (y0 y1 y2 y3 t : ℚ) : ℚ :=
  let t2 := t * t
  let t3 := t2 * t
  let a0 := -(1 / 2) * y0 + (3 / 2) * y1 - (3 / 2) * y2 + (1 / 2) * y3
  let a1 := y0 - (5 / 2) * y1 + 2 * y2 - (1 / 2) * y3
  let a2 := -(1 / 2) * y0 + (1 / 2) * y2
  let a3 := y1
  a0 * t3 + a1 * t2 + a2 * t + a3

/-- Models `detail::linearInterpolate`. -/
def linearInterpolate (y0 y1 t : ℚ) : ℚ :=
  y0 + t * (y1 - y0)

end detail

/-! ### Byte-level decoding helpers

`loadFile` / `loadFromMemory` read multi-byte little-endian fields with
`std::fread` / `std::memcpy`; these helpers model that byte assembly.
All inputs are bytes (`< 256`); out-of-range reads yield the byte 0 only in
situations the parser has already rejected. -/

/-- Little-endian `uint16_t` read at `off` (models `memcpy(&x, data + off, 2)`). -/
def readU16 (data : List ℕ) (off : ℕ) : ℕ :=
  data.getD off 0 + data.getD (off + 1) 0 * 256

/-- Little-endian `uint32_t` read at `off` (models `memcpy(&x, data + off, 4)`). -/
def readU32 (data : List ℕ) (off : ℕ) : ℕ :=
  data.getD off 0 + data.getD (off + 1) 0 * 256 +
    data.getD (off + 2) 0 * 65536 + data.getD (off + 3) 0 * 16777216

/-- Models `memcpy` of two little-endian bytes into an `int16_t`: two's complement. -/
def int16OfBytes (b0 b1 : ℕ) : ℤ :=
  let w : ℕ := b0 + b1 * 256
  if 32768 ≤ w then (w : ℤ) - 65536 else (w : ℤ)

/-- Models `memcpy` of four little-endian bytes into an `int32_t`: two's complement. -/
def int32OfBytes (b0 b1 b2 b3 : ℕ) : ℤ :=
  let w : ℕ := b0 + b1 * 256 + b2 * 65536 + b3 * 16777216
  if 2147483648 ≤ w then (w : ℤ) - 4294967296 else (w : ℤ)

/-- The exact rational value of an IEEE-754 binary32 bit pattern `w < 2^32`
(models `memcpy` of four bytes into a `float`).  Normal values are
`±(2^23 + mantissa) · 2^(expo - 150)`, subnormals `±mantissa · 2^(-149)`.
Infinities and NaNs (`expo = 255`) have no rational value and are mapped
to 0; no claim depends on them. -/
def float32OfBits (w : ℕ) : ℚ :=
  let sign := 2147483648 ≤ w
  let expo := w / 8388608 % 256
  let mant := w % 8388608
  let mag : ℚ :=
    if expo = 0 then (mant : ℚ) / 2 ^ 149
    else if expo = 255 then 0
    else ((8388608 + mant : ℕ) : ℚ) * 2 ^ expo / 2 ^ 150
  if sign then -mag else mag

/-! ### Sample conversion (`WavPlayer::convertSample` and callers) -/

namespace WavPlayer

/-- Models `WavPlayer::convertSample`: convert a single raw sample (a group of
`bits / 8` bytes, little-endian) to float.  Unknown widths yield `0.0f`. -/
def convertSample (bytes : List ℕ) (bits : ℕ) : ℚ :=
  if bits = 8 then detail.uint8ToFloat (bytes.getD 0 0)
  else if bits = 16 then detail.int16ToFloat (int16OfBytes (bytes.getD 0 0) (bytes.getD 1 0))
  else if bits = 24 then detail.int24ToFloat (bytes.getD 0 0) (bytes.getD 1 0) (bytes.getD 2 0)
  else if bits = 32 then detail.int32ToFloat
      (int32OfBytes (bytes.getD 0 0) (bytes.getD 1 0) (bytes.getD 2 0) (bytes.getD 3 0))
  else 0

/-- The per-sample branch shared by `readAndConvertSamples` and
`convertSamplesFromMemory`: an IEEE-float source at 32 bits is `memcpy`ed
through unchanged, every other case goes through `convertSample`. -/
def convertStoredSample (isFloat : Bool) (bits : ℕ) (bytes : List ℕ) : ℚ :=
  if isFloat = true ∧ bits = 32 then
    float32OfBits (bytes.getD 0 0 + bytes.getD 1 0 * 256 +
      bytes.getD 2 0 * 65536 + bytes.getD 3 0 * 16777216)
  else
    convertSample bytes bits

/-- Models `WavPlayer::convertSamplesFromMemory`: sample `f * channels + c` is decoded
from the `bytesPerSample` bytes at offset `(f * channels + c) * bytesPerSample`.
The double loop over frames and channels is flattened to the single interleaved
index it writes.  (The C++ function's return value is always `WavError::None`;
it has no failure path.) -/
def convertSamplesFromMemory (data : List ℕ) (numFrames channels bits : ℕ)
    (isFloat : Bool) : List ℚ :=
  let bytesPerSample := bits / 8
  (List.range (numFrames * channels)).map fun i =>
    convertStoredSample isFloat bits ((data.drop (i * bytesPerSample)).take bytesPerSample)

end WavPlayer

/-! ### Player state (`class WavPlayer` member variables) -/

/-- The fields of `detail::FmtChunk` filled in by the chunk scan. -/
structure FmtInfo where
  audioFormat : ℕ
  numChannels : ℕ
  sampleRate : ℕ
  byteRate : ℕ
  blockAlign : ℕ
  bitsPerSample : ℕ
  deriving DecidableEq, Repr

/-- Zero-initialised `detail::FmtChunk fmtChunk{}`. -/
def FmtInfo.zero : FmtInfo :=
  { audioFormat := 0, numChannels := 0, sampleRate := 0, byteRate := 0
    blockAlign := 0, bitsPerSample := 0 }

/-- The member variables of `WavPlayer`.  Atomics are plain fields: the claims
under proof are all sequential.  `audioData` holds the canonical float buffer
as exact rationals. -/
structure PlayerState where
  audioData : List ℚ
  filePath : String
  fileSampleRate : ℕ
  numChannels : ℕ
  numSamples : ℕ
  bitsPerSample : ℕ
  outputSampleRate : ℚ
  speed : ℚ
  pitch : ℚ
  volume : ℚ
  playbackPosition : ℚ
  state : PlaybackState
  loopMode : LoopMode
  reverse : Bool
  pingPongDirection : ℤ
  interpolation : InterpolationQuality
  deriving DecidableEq, Repr

/-- The value `numSamples_ - 1` where `numSamples_` is a `size_t`: unsigned subtraction
wrapping modulo `2^64` (for `numSamples_ = 0` this is `2^64 - 1`). -/
def sizeSubOne (n : ℕ) : ℕ :=
  (n + (2 ^ 64 - 1)) % 2 ^ 64

namespace WavPlayer

/-- The `WavPlayer()` constructor's initial state (empty buffer). -/
def init : PlayerState :=
  { audioData := [], filePath := "", fileSampleRate := 44100, numChannels := 1
    numSamples := 0, bitsPerSample := 16, outputSampleRate := 44100, speed := 1
    pitch := 1, volume := 1, playbackPosition := 0, state := .Stopped
    loopMode := .Off, reverse := false, pingPongDirection := 1
    interpolation := .Cubic }

/-! ### `loadFromMemory` -/

/-- The four-byte chunk tags compared by `detail::memEqual4`, as bytes. -/
def riffTag : List ℕ := [82, 73, 70, 70]

/-- Bytes of the format tag compared against bytes 8..11 of the header. -/
def waveTag : List ℕ := [87, 65, 86, 69]

/-- Bytes of the format-chunk tag. -/
def fmtTag : List ℕ := [102, 109, 116, 32]

/-- Bytes of the data-chunk tag. -/
def dataTag : List ℕ := [100, 97, 116, 97]

/-- Intermediate state of the chunk-scanning loop. -/
structure ScanState where
  foundFmt : Bool
  foundData : Bool
  fmt : FmtInfo
  dataSize : ℕ
  dataOffset : ℕ
  deriving DecidableEq, Repr

/-- Scan state before the loop. -/
def ScanState.start : ScanState :=
  { foundFmt := false, foundData := false, fmt := FmtInfo.zero
    dataSize := 0, dataOffset := 0 }

/-- The chunk-scanning `while` loop of `WavPlayer::loadFromMemory`:
`while (offset + 8 <= size && (!foundFmt || !foundData))`.  Each iteration
reads a 4-byte tag and 4-byte size; a format chunk must leave 16 readable
bytes (`CorruptedData` otherwise) and is skipped with even padding, a data
chunk records its size and offset and breaks, any other chunk is skipped
with even padding. -/
def scanChunksMem (data : List ℕ) (size : ℕ) (off : ℕ) (st : ScanState) :
    Except WavError ScanState :=
  if h : off + 8 ≤ size ∧ (st.foundFmt && st.foundData) = false then
    let chunkId := (data.drop off).take 4
    let chunkSize := readU32 data (off + 4)
    let off2 := off + 8
    if chunkId = fmtTag then
      if off2 + 16 > size then .error .CorruptedData
      else
        let fmt : FmtInfo :=
          { audioFormat := readU16 data off2
            numChannels := readU16 data (off2 + 2)
            sampleRate := readU32 data (off2 + 4)
            byteRate := readU32 data (off2 + 8)
            blockAlign := readU16 data (off2 + 12)
            bitsPerSample := readU16 data (off2 + 14) }
        scanChunksMem data size (off2 + (chunkSize + chunkSize % 2))
          { st with foundFmt := true, fmt := fmt }
    else if chunkId = dataTag then
      .ok { st with foundData := true, dataSize := chunkSize, dataOffset := off2 }
    else
      scanChunksMem data size (off2 + (chunkSize + chunkSize % 2)) st
  else .ok st
termination_by size - off
decreasing_by
  all_goals omega

/-- Models `WavPlayer::loadFromMemory`, from the size guard through commit.  Returns
the resulting player state together with the error code; every error return
in the source happens before any member is written, so the state is passed
back unchanged on those paths.  (A `nullptr` data pointer is not
representable; `std::bad_alloc` is not modelled — allocation succeeds.)
For `bitsPerSample < 8` the C++ computes `dataSize / 0`, which is undefined
behaviour; ℕ-division makes it 0 here, reaching `CorruptedData`. -/
def loadFromMemory (s : PlayerState) (data : List ℕ) : PlayerState × WavError :=
  let size := data.length
  if size < 20 then (s, .InvalidParameter)
  else if ¬(data.take 4 = riffTag ∧ (data.drop 8).take 4 = waveTag) then
    (s, .InvalidFormat)
  else
    match scanChunksMem data size 12 ScanState.start with
    | .error e => (s, e)
    | .ok st =>
      if (st.foundFmt && st.foundData) = false then (s, .InvalidFormat)
      else
        let fmt := st.fmt
        if fmt.audioFormat ≠ 1 ∧ fmt.audioFormat ≠ 3 then (s, .UnsupportedFormat)
        else if fmt.numChannels = 0 ∨ fmt.numChannels > 2 then (s, .UnsupportedFormat)
        else
          let bytesPerSample := fmt.bitsPerSample / 8
          let bytesPerFrame := bytesPerSample * fmt.numChannels
          let numFrames := st.dataSize / bytesPerFrame
          if numFrames = 0 ∨ st.dataOffset + st.dataSize > size then (s, .CorruptedData)
          else
            let newData := convertSamplesFromMemory (data.drop st.dataOffset) numFrames
              fmt.numChannels fmt.bitsPerSample (fmt.audioFormat = 3)
            ({ s with
                audioData := newData
                filePath := ""
                fileSampleRate := fmt.sampleRate
                numChannels := fmt.numChannels
                numSamples := numFrames
                bitsPerSample := fmt.bitsPerSample
                playbackPosition := 0
                state := .Stopped
                pingPongDirection := 1 }, .None)

/-! ### `loadFile`

The file is modelled as its byte contents (`Option` none = `fopen` failure);
`fread` of `n` bytes at position `pos` succeeds exactly when
`pos + n ≤ file.length`, and `fseek` moves the position. -/

/-- The chunk-scanning `while (!foundFmt || !foundData)` loop of
`WavPlayer::loadFile`.  Unlike the memory variant it has no size guard: a
failed 8-byte header read is `CorruptedData`.  A format chunk of declared
size `< 16` is `InvalidFormat`; a failed 16-byte field read is `ReadError`;
the remaining `chunkSize - 16` bytes are skipped without padding.  Unknown
chunks are skipped with even padding. -/
def scanChunksFile (file : List ℕ) (pos : ℕ) (st : ScanState) :
    Except WavError ScanState :=
  if h : (st.foundFmt && st.foundData) = false then
    if h8 : pos + 8 > file.length then .error .CorruptedData
    else
      let chunkId := (file.drop pos).take 4
      let chunkSize := readU32 file (pos + 4)
      let pos2 := pos + 8
      if chunkId = fmtTag then
        if chunkSize < 16 then .error .InvalidFormat
        else if pos2 + 16 > file.length then .error .ReadError
        else
          let fmt : FmtInfo :=
            { audioFormat := readU16 file pos2
              numChannels := readU16 file (pos2 + 2)
              sampleRate := readU32 file (pos2 + 4)
              byteRate := readU32 file (pos2 + 8)
              blockAlign := readU16 file (pos2 + 12)
              bitsPerSample := readU16 file (pos2 + 14) }
          scanChunksFile file (pos2 + 16 + (chunkSize - 16))
            { st with foundFmt := true, fmt := fmt }
      else if chunkId = dataTag then
        .ok { st with foundData := true, dataSize := chunkSize, dataOffset := pos2 }
      else
        scanChunksFile file (pos2 + (chunkSize + chunkSize % 2)) st
  else .ok st
termination_by file.length - pos
decreasing_by
  all_goals omega

/-- Models `WavPlayer::readAndConvertSamples`: the chunked `fread` loop succeeds
exactly when the file holds `numFrames * bytesPerFrame` bytes from `pos`
(each short `fread` is `ReadError`), and converts sample `i` from the bytes
at `pos + i * bytesPerSample` — identically to `convertSamplesFromMemory`. -/
def readAndConvertSamples (file : List ℕ) (pos : ℕ) (numFrames channels bits : ℕ)
    (isFloat : Bool) : Except WavError (List ℚ) :=
  let bytesPerFrame := (bits / 8) * channels
  if pos + numFrames * bytesPerFrame > file.length then .error .ReadError
  else .ok (convertSamplesFromMemory (file.drop pos) numFrames channels bits isFloat)

/-- Models `WavPlayer::loadFile`: an empty path is `InvalidParameter` (a `nullptr`
path is not representable), an unopenable file is `FileNotFound`, a short
RIFF-header read is `InvalidFormat`.  After the chunk scan, the format is
validated — here the extensible wrapper code `0xFFFE` is accepted alongside
PCM (1) and IEEE float (3) — then channel count and bit depth, and the data
is converted and committed.  Every error return precedes member writes. -/
def loadFile (s : PlayerState) (path : String) (file : Option (List ℕ)) :
    PlayerState × WavError :=
  if path = "" then (s, .InvalidParameter)
  else
    match file with
    | none => (s, .FileNotFound)
    | some bytes =>
      if bytes.length < 12 then (s, .InvalidFormat)
      else if ¬(bytes.take 4 = riffTag ∧ (bytes.drop 8).take 4 = waveTag) then
        (s, .InvalidFormat)
      else
        match scanChunksFile bytes 12 ScanState.start with
        | .error e => (s, e)
        | .ok st =>
          if (st.foundFmt && st.foundData) = false then (s, .InvalidFormat)
          else
            let fmt := st.fmt
            if (fmt.audioFormat ≠ 1 ∧ fmt.audioFormat ≠ 3) ∧ fmt.audioFormat ≠ 65534 then
              (s, .UnsupportedFormat)
            else if fmt.numChannels = 0 ∨ fmt.numChannels > 2 then (s, .UnsupportedFormat)
            else if fmt.bitsPerSample ≠ 8 ∧ fmt.bitsPerSample ≠ 16 ∧
                fmt.bitsPerSample ≠ 24 ∧ fmt.bitsPerSample ≠ 32 then
              (s, .UnsupportedFormat)
            else
              let bytesPerSample := fmt.bitsPerSample / 8
              let bytesPerFrame := bytesPerSample * fmt.numChannels
              let numFrames := st.dataSize / bytesPerFrame
              if numFrames = 0 then (s, .CorruptedData)
              else
                match readAndConvertSamples bytes st.dataOffset numFrames
                    fmt.numChannels fmt.bitsPerSample (fmt.audioFormat = 3) with
                | .error e => (s, e)
                | .ok newData =>
                  ({ s with
                      audioData := newData
                      filePath := path
                      fileSampleRate := fmt.sampleRate
                      numChannels := fmt.numChannels
                      numSamples := numFrames
                      bitsPerSample := fmt.bitsPerSample
                      playbackPosition := 0
                      state := .Stopped
                      pingPongDirection := 1 }, .None)

end WavPlayer

/-! ### The wrap loops of `advancePosition` (Forward loop mode)

`while (pos < 0.0) pos += len;` and `while (pos >= len) pos -= len;`.
The source reaches these only with `len = numSamples ≥ 1` (playback requires
a loaded buffer); for `len ≤ 0` the C++ loops would not terminate, so the
model returns `pos` unchanged in that dead case. -/

/-- The loop `while (pos < 0.0) pos += len;` (the reverse-travel wrap). -/
def wrapUp (pos len : ℚ) : ℚ :=
  if h : 0 < len ∧ pos < 0 then wrapUp (pos + len) len else pos
termination_by (⌈-pos / len⌉).toNat
decreasing_by
  simp_wf
  have hlen := h.1
  have hneg := h.2
  have hne : len ≠ 0 := ne_of_gt hlen
  have hdiv : (-len + -pos) / len = -pos / len - 1 := by field_simp; ring
  have h1 : (0 : ℚ) < -pos / len := div_pos (by linarith) hlen
  have hcl : (1 : ℤ) ≤ ⌈-pos / len⌉ := Int.ceil_pos.mpr h1
  have h2 : ⌈(-len + -pos) / len⌉ = ⌈-pos / len⌉ - 1 := by
    rw [hdiv, Int.ceil_sub_one]
  exact ⟨by omega, h1⟩

/-- The loop `while (pos >= len) pos -= len;` (the forward-travel wrap). -/
def wrapDown (pos len : ℚ) : ℚ :=
  if h : 0 < len ∧ len ≤ pos then wrapDown (pos - len) len else pos
termination_by (⌊pos / len⌋).toNat
decreasing_by
  simp_wf
  have hlen := h.1
  have hle := h.2
  have hne : len ≠ 0 := ne_of_gt hlen
  have hdiv : (pos - len) / len = pos / len - 1 := by field_simp
  have h1 : (1 : ℚ) ≤ pos / len := (one_le_div hlen).mpr hle
  have hfl : (1 : ℤ) ≤ ⌊pos / len⌋ := by
    rw [Int.le_floor]
    exact_mod_cast h1
  have h2 : ⌊(pos - len) / len⌋ = ⌊pos / len⌋ - 1 := by
    rw [hdiv, Int.floor_sub_one]
  omega

namespace WavPlayer

/-! ### Playback control and parameter setters -/

/-- Models `WavPlayer::stop`: state to `Stopped`; the position resets to
`numSamples_ - 1` (a `size_t` subtraction, so `2^64 - 1` when no buffer is
loaded) if `reverse_` is set, else to 0; the ping-pong direction resets to
match the reverse flag. -/
def stop (s : PlayerState) : PlayerState :=
  { s with
      state := .Stopped
      playbackPosition := if s.reverse then ((sizeSubOne s.numSamples : ℕ) : ℚ) else 0
      pingPongDirection := if s.reverse then -1 else 1 }

/-- Models `WavPlayer::setReverse`: store the flag; if it changed while `Stopped`,
reset the position (same `numSamples_ - 1` size_t expression as `stop`) and
the ping-pong direction. -/
def setReverse (s : PlayerState) (reverse : Bool) : PlayerState :=
  let wasReverse := s.reverse
  let s2 := { s with reverse := reverse }
  if wasReverse ≠ reverse ∧ s2.state = .Stopped then
    { s2 with
        playbackPosition := if reverse then ((sizeSubOne s2.numSamples : ℕ) : ℚ) else 0
        pingPongDirection := if reverse then -1 else 1 }
  else s2

/-- Models `WavPlayer::setSampleRate`: `outputSampleRate_.store(std::max(1.0f, sampleRate))`. -/
def setSampleRate (s : PlayerState) (sampleRate : ℚ) : PlayerState :=
  { s with outputSampleRate := max 1 sampleRate }

/-- Models `WavPlayer::getEffectivePlaybackRate`: `(outRate > 0 ? fileRate / outRate : 1)
* speed * pitch`. -/
def getEffectivePlaybackRate (s : PlayerState) : ℚ :=
  let outRate := s.outputSampleRate
  let fileRate := (s.fileSampleRate : ℚ)
  (if outRate > 0 then fileRate / outRate else 1) * s.speed * s.pitch

/-! ### Interpolation -/

/-- Models `WavPlayer::getSampleSafe`: clamp `frameIdx` to `numSamples_ - 1` (again a
`size_t` subtraction) when out of range, then index the interleaved buffer.
Indexing past the buffer is undefined behaviour in C++ (possible only in the
dead `numSamples_ = 0` case); the model yields 0 there. -/
def getSampleSafe (s : PlayerState) (frameIdx channel : ℕ) : ℚ :=
  let idx := if s.numSamples ≤ frameIdx then sizeSubOne s.numSamples else frameIdx
  s.audioData.getD (idx * s.numChannels + channel) 0

/-- Models `WavPlayer::interpolateMono`. -/
def interpolateMono (s : PlayerState) (idx : ℕ) (frac : ℚ) : ℚ :=
  match s.interpolation with
  | .None => getSampleSafe s idx 0
  | .Linear =>
    let y0 := getSampleSafe s idx 0
    let y1 := getSampleSafe s (idx + 1) 0
    detail.linearInterpolate y0 y1 frac
  | .Cubic =>
    let y0 := getSampleSafe s (if 0 < idx then idx - 1 else 0) 0
    let y1 := getSampleSafe s idx 0
    let y2 := getSampleSafe s (idx + 1) 0
    let y3 := getSampleSafe s (idx + 2) 0
    detail.cubicInterpolate y0 y1 y2 y3 frac

/-- Models `WavPlayer::interpolateStereo` (the two out-parameters become a pair). -/
def interpolateStereo (s : PlayerState) (idx : ℕ) (frac : ℚ) : ℚ × ℚ :=
  match s.interpolation with
  | .None => (getSampleSafe s idx 0, getSampleSafe s idx 1)
  | .Linear =>
    (detail.linearInterpolate (getSampleSafe s idx 0) (getSampleSafe s (idx + 1) 0) frac,
     detail.linearInterpolate (getSampleSafe s idx 1) (getSampleSafe s (idx + 1) 1) frac)
  | .Cubic =>
    let i0 := if 0 < idx then idx - 1 else 0
    (detail.cubicInterpolate (getSampleSafe s i0 0) (getSampleSafe s idx 0)
       (getSampleSafe s (idx + 1) 0) (getSampleSafe s (idx + 2) 0) frac,
     detail.cubicInterpolate (getSampleSafe s i0 1) (getSampleSafe s idx 1)
       (getSampleSafe s (idx + 1) 1) (getSampleSafe s (idx + 2) 1) frac)

/-! ### Position advance -/

/-- Models `WavPlayer::advancePosition`: compute the effective rate, negate it when
reversed, multiply by the ping-pong direction in ping-pong mode, add it to the
position, then apply the boundary policy of the active loop mode. -/
def advancePosition (s : PlayerState) : PlayerState :=
  let rate := getEffectivePlaybackRate s
  let rev := s.reverse
  let direction := s.pingPongDirection
  let delta0 := if rev then -rate else rate
  let delta := if s.loopMode = .PingPong then delta0 * (direction : ℚ) else delta0
  let pos := s.playbackPosition + delta
  match s.loopMode with
  | .Off =>
    if pos < 0 ∨ (s.numSamples : ℚ) ≤ pos then
      { s with
          state := .Stopped
          playbackPosition := detail.wavClamp pos 0 ((sizeSubOne s.numSamples : ℕ) : ℚ) }
    else { s with playbackPosition := pos }
  | .Forward =>
    let len := (s.numSamples : ℚ)
    { s with playbackPosition := if rev then wrapUp pos len else wrapDown pos len }
  | .PingPong =>
    let maxPos := ((sizeSubOne s.numSamples : ℕ) : ℚ)
    if pos < 0 then
      { s with playbackPosition := -pos, pingPongDirection := -direction }
    else if maxPos < pos then
      { s with playbackPosition := maxPos - (pos - maxPos), pingPongDirection := -direction }
    else { s with playbackPosition := pos }

end WavPlayer

/-! ## Claim theorems -/

/-- The value `numSamples_ - 1` is an ordinary subtraction once a buffer is loaded. -/
theorem sizeSubOne_eq {n : ℕ} (h1 : 1 ≤ n) (h2 : n < 2 ^ 64) :
    sizeSubOne n = n - 1 := by
  unfold sizeSubOne
  omega

/-- C1, counterexample: a sample rate of 0 supplied to `setSampleRate` is
replaced by 1, not by the claimed fallback 44100. -/
theorem C1_counterexample :
    (WavPlayer.setSampleRate WavPlayer.init 0).outputSampleRate = 1 ∧
    (WavPlayer.setSampleRate WavPlayer.init 0).outputSampleRate ≠ 44100 := by
  constructor <;> norm_num [WavPlayer.setSampleRate, WavPlayer.init]

/-- C1, amended: a zero or negative sample rate supplied to `setSampleRate`
is clamped up to the fallback 1 (`std::max(1.0f, sampleRate)`), so the stored
output rate is positive and the effective-rate computation divides by a
positive value (never by zero); 44100 is only the constructor's initial
default, not the fallback for bad inputs. -/
theorem C1_sampleRate_fallback (s : PlayerState) (r : ℚ) (hr : r ≤ 0) :
    (WavPlayer.setSampleRate s r).outputSampleRate = 1 ∧
    0 < (WavPlayer.setSampleRate s r).outputSampleRate ∧
    WavPlayer.getEffectivePlaybackRate (WavPlayer.setSampleRate s r) =
      ((s.fileSampleRate : ℚ) / 1) * s.speed * s.pitch ∧
    WavPlayer.init.outputSampleRate = 44100 := by
  have h1 : max (1 : ℚ) r = 1 := max_eq_left (hr.trans zero_le_one)
  refine ⟨by simp [WavPlayer.setSampleRate, h1], ?_, ?_, rfl⟩
  · simp [WavPlayer.setSampleRate, h1]
  · simp [WavPlayer.getEffectivePlaybackRate, WavPlayer.setSampleRate, h1]

/-- C1 witness: instantiated at the initial state and sample rate 0. -/
theorem C1_sampleRate_fallback_witness :
    (WavPlayer.setSampleRate WavPlayer.init 0).outputSampleRate = 1 ∧
    0 < (WavPlayer.setSampleRate WavPlayer.init 0).outputSampleRate ∧
    WavPlayer.getEffectivePlaybackRate (WavPlayer.setSampleRate WavPlayer.init 0) =
      ((WavPlayer.init.fileSampleRate : ℚ) / 1) * WavPlayer.init.speed * WavPlayer.init.pitch ∧
    WavPlayer.init.outputSampleRate = 44100 :=
  C1_sampleRate_fallback WavPlayer.init 0 (by norm_num)

/-- C10: with no buffer loaded (`numSamples_ = 0`) and reverse set, `stop()`
stores `static_cast<double>(numSamples_ - 1)`, i.e. the size_t wraparound
`2^64 - 1`, as the playhead position — not 0; and toggling the reverse flag
on via `setReverse` while `Stopped` does the same. -/
theorem C10_unloaded_reverse_position (s : PlayerState) (h0 : s.numSamples = 0) :
    (s.reverse = true →
      (WavPlayer.stop s).playbackPosition = 18446744073709551615 ∧
      (WavPlayer.stop s).playbackPosition ≠ 0) ∧
    (s.reverse = false → s.state = .Stopped →
      (WavPlayer.setReverse s true).playbackPosition = 18446744073709551615) := by
  have hw : sizeSubOne 0 = 18446744073709551615 := by
    unfold sizeSubOne
    norm_num
  constructor
  · intro hrev
    constructor <;> simp [WavPlayer.stop, hrev, h0, hw]
  · intro hrev hst
    simp [WavPlayer.setReverse, hrev, hst, h0, hw]

/-- C10 witness: the freshly constructed player (no buffer) at both entry
points. -/
theorem C10_unloaded_reverse_position_witness :
    (WavPlayer.stop { WavPlayer.init with reverse := true }).playbackPosition =
      18446744073709551615 ∧
    (WavPlayer.setReverse WavPlayer.init true).playbackPosition = 18446744073709551615 :=
  ⟨((C10_unloaded_reverse_position { WavPlayer.init with reverse := true } rfl).1 rfl).1,
   (C10_unloaded_reverse_position WavPlayer.init rfl).2 rfl rfl⟩

/-- C5: with loop mode Off, an advance that lands outside `[0, frameCount)`
stops playback and clamps the position to the nearest valid bound
(`frameCount - 1` above, 0 below).  `p` is the advanced position the code
computes (current position plus the signed delta). -/
theorem C5_off_boundary (s : PlayerState) (p : ℚ)
    (hp : p = s.playbackPosition +
      (if s.reverse = true then -(WavPlayer.getEffectivePlaybackRate s)
       else WavPlayer.getEffectivePlaybackRate s))
    (hloop : s.loopMode = .Off) (h1 : 1 ≤ s.numSamples) (h2 : s.numSamples < 2 ^ 64)
    (hout : p < 0 ∨ (s.numSamples : ℚ) ≤ p) :
    (WavPlayer.advancePosition s).state = .Stopped ∧
    ((s.numSamples : ℚ) ≤ p →
      (WavPlayer.advancePosition s).playbackPosition = ((s.numSamples - 1 : ℕ) : ℚ)) ∧
    (p < 0 → (WavPlayer.advancePosition s).playbackPosition = 0) := by
  have hss : sizeSubOne s.numSamples = s.numSamples - 1 := sizeSubOne_eq h1 h2
  have hcast : ((s.numSamples - 1 : ℕ) : ℚ) = (s.numSamples : ℚ) - 1 := by
    push_cast [h1]
    ring
  have hnn : (0 : ℚ) ≤ ((s.numSamples - 1 : ℕ) : ℚ) := Nat.cast_nonneg _
  unfold WavPlayer.advancePosition
  simp only [hloop, hss,
    if_neg (show ¬(LoopMode.Off = LoopMode.PingPong) from by decide)]
  rw [← hp, if_pos hout]
  refine ⟨rfl, ?_, ?_⟩
  · intro hge
    have hle : ((s.numSamples - 1 : ℕ) : ℚ) ≤ p := by
      rw [hcast]
      linarith
    simp [detail.wavClamp, min_eq_left hle, max_eq_right hnn]
  · intro hlt
    have hle : p ≤ ((s.numSamples - 1 : ℕ) : ℚ) := by linarith
    simp [detail.wavClamp, min_eq_right hle, max_eq_left hlt.le]

/-- The concrete Off-mode scenario of the specification: a 10-frame mono
buffer, speed 2 (an advance of 2 frames per tick at matched rates),
playhead at frame 9. -/
def offScenario : PlayerState :=
  { WavPlayer.init with
      audioData := List.replicate 10 0
      numSamples := 10
      speed := 2
      state := .Playing
      playbackPosition := 9 }

/-- C5 witness: from frame 9 an advance by +2 lands at 11, out of range, so
the state becomes Stopped and the position clamps to 9. -/
theorem C5_off_boundary_witness :
    (WavPlayer.advancePosition offScenario).state = .Stopped ∧
    (WavPlayer.advancePosition offScenario).playbackPosition = 9 := by
  have h := C5_off_boundary offScenario 11
    (by norm_num [offScenario, WavPlayer.init, WavPlayer.getEffectivePlaybackRate])
    rfl (by norm_num [offScenario, WavPlayer.init])
    (by norm_num [offScenario, WavPlayer.init])
    (Or.inr (by norm_num [offScenario, WavPlayer.init]))
  refine ⟨h.1, ?_⟩
  have h2 := h.2.1 (by norm_num [offScenario, WavPlayer.init])
  simpa [offScenario, WavPlayer.init] using h2

/-- C6: with loop mode PingPong, an advance landing below 0 reflects the
position to its negation and inverts the direction sign, and an advance
landing above `frameCount - 1` reflects it to
`(frameCount-1) - (position - (frameCount-1))` and inverts the direction
sign.  `p` is the advanced position the code computes (current position plus
the direction-weighted signed delta). -/
theorem C6_pingpong_reflection (s : PlayerState) (p : ℚ)
    (hp : p = s.playbackPosition +
      (if s.reverse = true then -(WavPlayer.getEffectivePlaybackRate s)
       else WavPlayer.getEffectivePlaybackRate s) * (s.pingPongDirection : ℚ))
    (hloop : s.loopMode = .PingPong) (h1 : 1 ≤ s.numSamples) (h2 : s.numSamples < 2 ^ 64) :
    (p < 0 →
      (WavPlayer.advancePosition s).playbackPosition = -p ∧
      (WavPlayer.advancePosition s).pingPongDirection = -s.pingPongDirection) ∧
    (((s.numSamples - 1 : ℕ) : ℚ) < p →
      (WavPlayer.advancePosition s).playbackPosition =
        ((s.numSamples - 1 : ℕ) : ℚ) - (p - ((s.numSamples - 1 : ℕ) : ℚ)) ∧
      (WavPlayer.advancePosition s).pingPongDirection = -s.pingPongDirection) := by
  have hss : sizeSubOne s.numSamples = s.numSamples - 1 := sizeSubOne_eq h1 h2
  have hnn : (0 : ℚ) ≤ ((s.numSamples - 1 : ℕ) : ℚ) := Nat.cast_nonneg _
  unfold WavPlayer.advancePosition
  simp only [hloop, hss, eq_self_iff_true, if_true]
  rw [← hp]
  constructor
  · intro hneg
    rw [if_pos hneg]
    exact ⟨rfl, rfl⟩
  · intro hover
    have hpos : ¬(p < 0) := not_lt.mpr (hnn.trans hover.le)
    rw [if_neg hpos, if_pos hover]
    exact ⟨rfl, rfl⟩

/-- The concrete PingPong scenario of the specification: a 10-frame buffer,
direction +1, playhead at frame 9, an advance of 2 frames per tick. -/
def pingScenario : PlayerState :=
  { WavPlayer.init with
      audioData := List.replicate 10 0
      numSamples := 10
      speed := 2
      loopMode := .PingPong
      state := .Playing
      playbackPosition := 9 }

/-- C6 witness: from frame 9 with direction +1 an advance by +2 lands at 11,
above 9, so the position reflects to 7 and the direction flips to -1. -/
theorem C6_pingpong_reflection_witness :
    (WavPlayer.advancePosition pingScenario).playbackPosition = 7 ∧
    (WavPlayer.advancePosition pingScenario).pingPongDirection = -1 := by
  have h := C6_pingpong_reflection pingScenario 11
    (by norm_num [pingScenario, WavPlayer.init, WavPlayer.getEffectivePlaybackRate])
    rfl (by norm_num [pingScenario, WavPlayer.init])
    (by norm_num [pingScenario, WavPlayer.init])
  have h2 := h.2 (by norm_num [pingScenario, WavPlayer.init])
  constructor
  · rw [h2.1]
    norm_num [pingScenario, WavPlayer.init]
  · rw [h2.2]
    norm_num [pingScenario, WavPlayer.init]

/-- For `0 ≤ p < 2·len` the forward wrap loop computes `p mod len`. -/
theorem wrapDown_eq (p len : ℚ) (hlen : 0 < len) (h0 : 0 ≤ p) (h2 : p < 2 * len) :
    wrapDown p len = p - len * ⌊p / len⌋ := by
  by_cases hge : len ≤ p
  · have hnot : ¬(0 < len ∧ len ≤ p - len) := by
      rintro ⟨-, hle2⟩
      linarith
    have hfl : ⌊p / len⌋ = 1 := by
      rw [Int.floor_eq_iff]
      push_cast
      constructor
      · exact (one_le_div hlen).mpr hge
      · rw [div_lt_iff hlen]
        linarith
    rw [wrapDown, dif_pos ⟨hlen, hge⟩, wrapDown, dif_neg hnot, hfl]
    push_cast
    ring
  · have hfl : ⌊p / len⌋ = 0 := by
      rw [Int.floor_eq_iff]
      push_cast
      have hlt1 : p / len < 1 := by
        rw [div_lt_one hlen]
        linarith [not_le.mp hge]
      exact ⟨div_nonneg h0 hlen.le, by linarith⟩
    rw [wrapDown, dif_neg fun hc => hge hc.2, hfl]
    push_cast
    ring

/-- For `-len < p < len` the backward wrap loop computes `p mod len`. -/
theorem wrapUp_eq (p len : ℚ) (hlen : 0 < len) (hlo : -len < p) (hhi : p < len) :
    wrapUp p len = p - len * ⌊p / len⌋ := by
  by_cases hneg : p < 0
  · have hnot : ¬(0 < len ∧ p + len < 0) := by
      rintro ⟨-, hc⟩
      linarith
    have hfl : ⌊p / len⌋ = -1 := by
      rw [Int.floor_eq_iff]
      push_cast
      constructor
      · rw [le_div_iff hlen]
        linarith
      · have : p / len < 0 := div_neg_of_neg_of_pos hneg hlen
        linarith
    rw [wrapUp, dif_pos ⟨hlen, hneg⟩, wrapUp, dif_neg hnot, hfl]
    push_cast
    ring
  · have hfl : ⌊p / len⌋ = 0 := by
      rw [Int.floor_eq_iff]
      push_cast
      have hlt1 : p / len < 1 := by
        rw [div_lt_one hlen]
        linarith
      exact ⟨div_nonneg (not_lt.mp hneg) hlen.le, by linarith⟩
    rw [wrapUp, dif_neg fun hc => hneg hc.2, hfl]
    push_cast
    ring

/-- C7: with loop mode Forward and a per-tick delta smaller in magnitude than
the buffer (travelling backward exactly when `reverse` is set, as the code
guarantees), a position advanced from inside `[0, frameCount)` is wrapped
modulo `frameCount` by the repeated addition/subtraction loops, landing back
inside `[0, frameCount)`.  `d` is the signed delta and `p` the advanced
position the code computes. -/
theorem C7_forward_wrap (s : PlayerState) (d p : ℚ)
    (hd : d = (if s.reverse = true then -(WavPlayer.getEffectivePlaybackRate s)
               else WavPlayer.getEffectivePlaybackRate s))
    (hp : p = s.playbackPosition + d)
    (hloop : s.loopMode = .Forward) (h1 : 1 ≤ s.numSamples)
    (hpos0 : 0 ≤ s.playbackPosition) (hpos1 : s.playbackPosition < (s.numSamples : ℚ))
    (hmag : |d| < (s.numSamples : ℚ))
    (hdir : (s.reverse = true → d ≤ 0) ∧ (s.reverse = false → 0 ≤ d)) :
    (WavPlayer.advancePosition s).playbackPosition =
      p - (s.numSamples : ℚ) * ⌊p / (s.numSamples : ℚ)⌋ ∧
    0 ≤ (WavPlayer.advancePosition s).playbackPosition ∧
    (WavPlayer.advancePosition s).playbackPosition < (s.numSamples : ℚ) := by
  have hlen : (0 : ℚ) < (s.numSamples : ℚ) := by exact_mod_cast h1
  have habs := abs_lt.mp hmag
  have hmain : (WavPlayer.advancePosition s).playbackPosition =
      p - (s.numSamples : ℚ) * ⌊p / (s.numSamples : ℚ)⌋ := by
    unfold WavPlayer.advancePosition
    simp only [hloop, if_neg (show ¬(LoopMode.Forward = LoopMode.PingPong) from by decide)]
    rw [← hd, ← hp]
    cases hrev : s.reverse with
    | true =>
      simp only [if_true]
      exact wrapUp_eq p _ hlen (by have := hdir.1 hrev; linarith [habs.1]) (by
        have := hdir.1 hrev
        linarith)
    | false =>
      simp only [Bool.false_eq_true, if_false]
      exact wrapDown_eq p _ hlen (by have := hdir.2 hrev; linarith) (by
        have := hdir.2 hrev
        linarith [habs.2])
  have hfract : p - (s.numSamples : ℚ) * ⌊p / (s.numSamples : ℚ)⌋ =
      (s.numSamples : ℚ) * Int.fract (p / (s.numSamples : ℚ)) := by
    rw [Int.fract]
    field_simp
  refine ⟨hmain, ?_, ?_⟩
  · rw [hmain, hfract]
    exact mul_nonneg hlen.le (Int.fract_nonneg _)
  · rw [hmain, hfract]
    calc (s.numSamples : ℚ) * Int.fract (p / (s.numSamples : ℚ))
        < (s.numSamples : ℚ) * 1 := by
          exact mul_lt_mul_of_pos_left (Int.fract_lt_one _) hlen
      _ = (s.numSamples : ℚ) := mul_one _

/-- The concrete Forward scenario of the specification: a 10-frame buffer,
playhead at frame 9, an advance of 3 frames per tick. -/
def forwardScenario : PlayerState :=
  { WavPlayer.init with
      audioData := List.replicate 10 0
      numSamples := 10
      speed := 3
      loopMode := .Forward
      state := .Playing
      playbackPosition := 9 }

/-- C7 witness: from frame 9 an advance by +3 lands at 12 and wraps to
`(9 + 3) mod 10 = 2`. -/
theorem C7_forward_wrap_witness :
    (WavPlayer.advancePosition forwardScenario).playbackPosition = 2 := by
  have h := C7_forward_wrap forwardScenario 3 12
    (by norm_num [forwardScenario, WavPlayer.init, WavPlayer.getEffectivePlaybackRate])
    (by norm_num [forwardScenario, WavPlayer.init])
    rfl (by norm_num [forwardScenario, WavPlayer.init])
    (by norm_num [forwardScenario, WavPlayer.init])
    (by norm_num [forwardScenario, WavPlayer.init])
    (by norm_num [forwardScenario, WavPlayer.init])
    (by constructor <;> simp [forwardScenario, WavPlayer.init])
  rw [h.1]
  norm_num [forwardScenario, WavPlayer.init]

/-- C8: interpolating exactly at a stored frame index (fractional part 0)
returns that frame's stored value, for each interpolation quality, for mono
buffers (via `interpolateMono`) and stereo buffers (via `interpolateStereo`,
each channel independently). -/
theorem C8_integer_position_identity (s : PlayerState) (q : InterpolationQuality)
    (idx : ℕ) (hidx : idx < s.numSamples) :
    (s.numChannels = 1 →
      WavPlayer.interpolateMono { s with interpolation := q } idx 0 =
        s.audioData.getD idx 0) ∧
    (s.numChannels = 2 →
      WavPlayer.interpolateStereo { s with interpolation := q } idx 0 =
        (s.audioData.getD (idx * 2) 0, s.audioData.getD (idx * 2 + 1) 0)) := by
  have hclamp : ¬(s.numSamples ≤ idx) := not_le.mpr hidx
  constructor
  · intro hch
    cases q <;>
      simp [WavPlayer.interpolateMono, WavPlayer.getSampleSafe, hclamp, hch,
        detail.linearInterpolate, detail.cubicInterpolate]
  · intro hch
    cases q <;>
      simp [WavPlayer.interpolateStereo, WavPlayer.getSampleSafe, hclamp, hch,
        detail.linearInterpolate, detail.cubicInterpolate, mul_comm]

/-- A three-frame mono buffer used to witness the interpolation identity. -/
def monoScenario : PlayerState :=
  { WavPlayer.init with
      audioData := [1 / 2, -1 / 3, 1 / 4]
      numSamples := 3
      numChannels := 1 }

/-- C8 witness: interpolation at integer frame 1 of the three-frame buffer
returns the stored value -1/3 for all three qualities. -/
theorem C8_integer_position_identity_witness :
    WavPlayer.interpolateMono { monoScenario with interpolation := .Cubic } 1 0 =
      monoScenario.audioData.getD 1 0 ∧
    WavPlayer.interpolateMono { monoScenario with interpolation := .Linear } 1 0 =
      monoScenario.audioData.getD 1 0 ∧
    WavPlayer.interpolateMono { monoScenario with interpolation := .None } 1 0 =
      monoScenario.audioData.getD 1 0 ∧
    monoScenario.audioData.getD 1 0 = -(1 / 3) :=
  ⟨(C8_integer_position_identity monoScenario .Cubic 1 (by norm_num [monoScenario])).1 rfl,
   (C8_integer_position_identity monoScenario .Linear 1 (by norm_num [monoScenario])).1 rfl,
   (C8_integer_position_identity monoScenario .None 1 (by norm_num [monoScenario])).1 rfl,
   by
     simp only [monoScenario]
     norm_num⟩

/-! ### Byte encoders used to state the converter round-trip (C9)

These produce the little-endian two's-complement byte groups a WAV file
stores, so the theorems below quantify over the numeric sample value. -/

/-- The two little-endian bytes of the int16 value `v`. -/
def bytesOfInt16 (v : ℤ) : List ℕ :=
  [(v % 65536).toNat % 256, (v % 65536).toNat / 256]

/-- The three little-endian bytes of the int24 value `v`. -/
def bytesOfInt24 (v : ℤ) : List ℕ :=
  [(v % 16777216).toNat % 256, (v % 16777216).toNat / 256 % 256,
   (v % 16777216).toNat / 65536]

/-- The four little-endian bytes of the int32 value `v`. -/
def bytesOfInt32 (v : ℤ) : List ℕ :=
  [(v % 4294967296).toNat % 256, (v % 4294967296).toNat / 256 % 256,
   (v % 4294967296).toNat / 65536 % 256, (v % 4294967296).toNat / 16777216]

/-- The IEEE-754 binary32 bit pattern with the given sign, biased exponent
and mantissa fields. -/
def float32Bits (sign : Bool) (expo mant : ℕ) : ℕ :=
  (if sign then 2147483648 else 0) + expo * 8388608 + mant

/-- The four little-endian bytes of a 32-bit word. -/
def bytesOfWord32 (w : ℕ) : List ℕ :=
  [w % 256, w / 256 % 256, w / 65536 % 256, w / 16777216 % 256]

/-- Decoding a normal binary32 bit pattern yields its exact IEEE value
`±(2^23 + mantissa) · 2^(expo - 150)`. -/
theorem float32OfBits_of_normal (sgn : Bool) (e m : ℕ)
    (he1 : 1 ≤ e) (he2 : e ≤ 254) (hm : m < 8388608) :
    float32OfBits (float32Bits sgn e m) =
      (if sgn = true then -1 else 1) * (((8388608 + m : ℕ) : ℚ) * 2 ^ e / 2 ^ 150) := by
  cases sgn
  case false =>
    have hw : float32Bits false e m = e * 8388608 + m := by
      unfold float32Bits
      simp
    have h1 : ¬(2147483648 ≤ e * 8388608 + m) := by omega
    have h2 : (e * 8388608 + m) / 8388608 % 256 = e := by omega
    have h3 : (e * 8388608 + m) % 8388608 = m := by omega
    have h4 : e ≠ 0 := by omega
    have h5 : e ≠ 255 := by omega
    rw [hw]
    simp only [float32OfBits, h2, h3]
    rw [if_neg h1, if_neg h4, if_neg h5]
    norm_num
  case true =>
    have hw : float32Bits true e m = 2147483648 + e * 8388608 + m := by
      unfold float32Bits
      simp
    have h1 : 2147483648 ≤ 2147483648 + e * 8388608 + m := by omega
    have h2 : (2147483648 + e * 8388608 + m) / 8388608 % 256 = e := by omega
    have h3 : (2147483648 + e * 8388608 + m) % 8388608 = m := by omega
    have h4 : e ≠ 0 := by omega
    have h5 : e ≠ 255 := by omega
    rw [hw]
    simp only [float32OfBits, h2, h3]
    rw [if_pos h1, if_neg h4, if_neg h5]
    norm_num

/-- The 16-bit decode path: two's-complement bytes back to `v / 32768`. -/
theorem convertSample16_eq (v : ℤ) (h1 : -32768 ≤ v) (h2 : v < 32768) :
    WavPlayer.convertSample (bytesOfInt16 v) 16 = (v : ℚ) / 32768 := by
  have key : int16OfBytes ((v % 65536).toNat % 256) ((v % 65536).toNat / 256) = v := by
    simp only [int16OfBytes]
    split <;> omega
  simp [WavPlayer.convertSample, bytesOfInt16, detail.int16ToFloat, key]

/-- C9: the sample converter maps each width exactly as specified —
8-bit unsigned to `(raw - 128)/128`, 16-bit signed to `raw/32768`,
24-bit little-endian sign-extended to `raw/2^23`, 32-bit signed to
`raw/2^31`, an IEEE-float source passes its bit pattern's exact value
through unrescaled, and the maximum 16-bit value 32767 lands within
`1/32768` of 1. -/
theorem C9_sample_conversion
    (b : ℕ) (hb : b < 256)
    (v16 : ℤ) (h16a : -32768 ≤ v16) (h16b : v16 < 32768)
    (v24 : ℤ) (h24a : -8388608 ≤ v24) (h24b : v24 < 8388608)
    (v32 : ℤ) (h32a : -2147483648 ≤ v32) (h32b : v32 < 2147483648)
    (sgn : Bool) (e m : ℕ) (he1 : 1 ≤ e) (he2 : e ≤ 254) (hm : m < 8388608) :
    WavPlayer.convertSample [b] 8 = ((b : ℚ) - 128) / 128 ∧
    WavPlayer.convertSample (bytesOfInt16 v16) 16 = (v16 : ℚ) / 32768 ∧
    WavPlayer.convertSample (bytesOfInt24 v24) 24 = (v24 : ℚ) / 8388608 ∧
    WavPlayer.convertSample (bytesOfInt32 v32) 32 = (v32 : ℚ) / 2147483648 ∧
    WavPlayer.convertStoredSample true 32 (bytesOfWord32 (float32Bits sgn e m)) =
      (if sgn = true then -1 else 1) * (((8388608 + m : ℕ) : ℚ) * 2 ^ e / 2 ^ 150) ∧
    |WavPlayer.convertSample (bytesOfInt16 32767) 16 - 1| ≤ 1 / 32768 := by
  have key24 : detail.int24ToFloat ((v24 % 16777216).toNat % 256)
      ((v24 % 16777216).toNat / 256 % 256) ((v24 % 16777216).toNat / 65536) =
      (v24 : ℚ) / 8388608 := by
    simp only [detail.int24ToFloat]
    have hs : (if 8388608 ≤ (v24 % 16777216).toNat % 256 +
          (v24 % 16777216).toNat / 256 % 256 * 256 + (v24 % 16777216).toNat / 65536 * 65536 then
        (((v24 % 16777216).toNat % 256 + (v24 % 16777216).toNat / 256 % 256 * 256 +
          (v24 % 16777216).toNat / 65536 * 65536 : ℕ) : ℤ) - 16777216
      else (((v24 % 16777216).toNat % 256 + (v24 % 16777216).toNat / 256 % 256 * 256 +
          (v24 % 16777216).toNat / 65536 * 65536 : ℕ) : ℤ)) = v24 := by
      split <;> omega
    rw [hs]
  have key32 : int32OfBytes ((v32 % 4294967296).toNat % 256)
      ((v32 % 4294967296).toNat / 256 % 256) ((v32 % 4294967296).toNat / 65536 % 256)
      ((v32 % 4294967296).toNat / 16777216) = v32 := by
    simp only [int32OfBytes]
    split <;> omega
  have keyF : (float32Bits sgn e m) % 256 + (float32Bits sgn e m) / 256 % 256 * 256 +
      (float32Bits sgn e m) / 65536 % 256 * 65536 +
      (float32Bits sgn e m) / 16777216 % 256 * 16777216 = float32Bits sgn e m := by
    have hlt : float32Bits sgn e m < 4294967296 := by
      unfold float32Bits
      split <;> omega
    omega
  refine ⟨?_, ?_, ?_, ?_, ?_, ?_⟩
  · simp [WavPlayer.convertSample, detail.uint8ToFloat]
  · exact convertSample16_eq v16 h16a h16b
  · simp [WavPlayer.convertSample, bytesOfInt24, key24]
  · simp [WavPlayer.convertSample, bytesOfInt32, detail.int32ToFloat, key32]
  · have hsum : (bytesOfWord32 (float32Bits sgn e m)).getD 0 0 +
        (bytesOfWord32 (float32Bits sgn e m)).getD 1 0 * 256 +
        (bytesOfWord32 (float32Bits sgn e m)).getD 2 0 * 65536 +
        (bytesOfWord32 (float32Bits sgn e m)).getD 3 0 * 16777216 = float32Bits sgn e m := by
      simpa [bytesOfWord32] using keyF
    rw [WavPlayer.convertStoredSample, if_pos ⟨rfl, rfl⟩, hsum]
    exact float32OfBits_of_normal sgn e m he1 he2 hm
  · rw [convertSample16_eq 32767 (by norm_num) (by norm_num), abs_le]
    constructor <;> norm_num

/-- C9 witness: instantiated at byte 255, int16 value 32767, int24 value -1,
int32 value 123, and the binary32 pattern of 1.0 (sign 0, exponent 127,
mantissa 0). -/
theorem C9_sample_conversion_witness :
    WavPlayer.convertSample [255] 8 = (((255 : ℕ) : ℚ) - 128) / 128 ∧
    WavPlayer.convertSample (bytesOfInt16 32767) 16 = ((32767 : ℤ) : ℚ) / 32768 ∧
    WavPlayer.convertSample (bytesOfInt24 (-1)) 24 = ((-1 : ℤ) : ℚ) / 8388608 ∧
    WavPlayer.convertSample (bytesOfInt32 123) 32 = ((123 : ℤ) : ℚ) / 2147483648 ∧
    WavPlayer.convertStoredSample true 32 (bytesOfWord32 (float32Bits false 127 0)) =
      (if false = true then -1 else 1) * (((8388608 + 0 : ℕ) : ℚ) * 2 ^ 127 / 2 ^ 150) ∧
    |WavPlayer.convertSample (bytesOfInt16 32767) 16 - 1| ≤ 1 / 32768 :=
  C9_sample_conversion 255 (by norm_num) 32767 (by norm_num) (by norm_num)
    (-1) (by norm_num) (by norm_num) 123 (by norm_num) (by norm_num)
    false 127 0 (by norm_num) (by norm_num) (by norm_num)

/-! ### Load-path claims (C2, C3, C4) -/

/-- Every error return in `loadFromMemory` happens before any member write. -/
theorem loadFromMemory_err (s : PlayerState) (data : List ℕ) :
    (WavPlayer.loadFromMemory s data).1 = s ∨
    (WavPlayer.loadFromMemory s data).2 = WavError.None := by
  simp only [WavPlayer.loadFromMemory]
  repeat' split
  all_goals first
  | exact Or.inl rfl
  | exact Or.inr rfl

/-- Every error return in `loadFile` happens before any member write. -/
theorem loadFile_err (s : PlayerState) (path : String) (file : Option (List ℕ)) :
    (WavPlayer.loadFile s path file).1 = s ∨
    (WavPlayer.loadFile s path file).2 = WavError.None := by
  simp only [WavPlayer.loadFile]
  repeat' split
  all_goals first
  | exact Or.inl rfl
  | exact Or.inr rfl

/-- C4: a load (either entry point) that reports any error leaves the
committed buffer and its metadata (frame count, channel count, source rate,
bit depth) unchanged, so the prior file remains loaded. -/
theorem C4_failed_load_preserves_state (s : PlayerState) (path : String)
    (file : Option (List ℕ)) (data : List ℕ) :
    ((WavPlayer.loadFile s path file).2 ≠ WavError.None →
      (WavPlayer.loadFile s path file).1.audioData = s.audioData ∧
      (WavPlayer.loadFile s path file).1.numSamples = s.numSamples ∧
      (WavPlayer.loadFile s path file).1.numChannels = s.numChannels ∧
      (WavPlayer.loadFile s path file).1.fileSampleRate = s.fileSampleRate ∧
      (WavPlayer.loadFile s path file).1.bitsPerSample = s.bitsPerSample) ∧
    ((WavPlayer.loadFromMemory s data).2 ≠ WavError.None →
      (WavPlayer.loadFromMemory s data).1.audioData = s.audioData ∧
      (WavPlayer.loadFromMemory s data).1.numSamples = s.numSamples ∧
      (WavPlayer.loadFromMemory s data).1.numChannels = s.numChannels ∧
      (WavPlayer.loadFromMemory s data).1.fileSampleRate = s.fileSampleRate ∧
      (WavPlayer.loadFromMemory s data).1.bitsPerSample = s.bitsPerSample) := by
  constructor
  · intro h
    rcases loadFile_err s path file with he | he
    · rw [he]
      exact ⟨rfl, rfl, rfl, rfl, rfl⟩
    · exact absurd he h
  · intro h
    rcases loadFromMemory_err s data with he | he
    · rw [he]
      exact ⟨rfl, rfl, rfl, rfl, rfl⟩
    · exact absurd he h

/-- A player state with a one-frame buffer already committed. -/
def priorState : PlayerState :=
  { WavPlayer.init with audioData := [1 / 2], numSamples := 1 }

/-- C4 witness: a failed `loadFile` (empty path) and a failed
`loadFromMemory` (buffer too small) leave the previously loaded one-frame
buffer and its metadata intact. -/
theorem C4_failed_load_preserves_state_witness :
    ((WavPlayer.loadFile priorState "" none).1.audioData = priorState.audioData ∧
      (WavPlayer.loadFile priorState "" none).1.numSamples = priorState.numSamples ∧
      (WavPlayer.loadFile priorState "" none).1.numChannels = priorState.numChannels ∧
      (WavPlayer.loadFile priorState "" none).1.fileSampleRate = priorState.fileSampleRate ∧
      (WavPlayer.loadFile priorState "" none).1.bitsPerSample = priorState.bitsPerSample) ∧
    ((WavPlayer.loadFromMemory priorState []).1.audioData = priorState.audioData ∧
      (WavPlayer.loadFromMemory priorState []).1.numSamples = priorState.numSamples ∧
      (WavPlayer.loadFromMemory priorState []).1.numChannels = priorState.numChannels ∧
      (WavPlayer.loadFromMemory priorState []).1.fileSampleRate = priorState.fileSampleRate ∧
      (WavPlayer.loadFromMemory priorState []).1.bitsPerSample = priorState.bitsPerSample) :=
  ⟨(C4_failed_load_preserves_state priorState "" none []).1 (by decide),
   (C4_failed_load_preserves_state priorState "" none []).2 (by decide)⟩

/-- A complete WAV container (header, format chunk, data chunk) whose format
chunk declares PCM, 1 channel, 44100 Hz, and a bits-per-sample of 12 — an
unsupported depth — followed by a 4-byte data payload. -/
def bits12Wav : List ℕ :=
  [82, 73, 70, 70, 40, 0, 0, 0, 87, 65, 86, 69,
   102, 109, 116, 32, 16, 0, 0, 0, 1, 0, 1, 0, 68, 172, 0, 0, 0, 0, 0, 0, 2, 0, 12, 0,
   100, 97, 116, 97, 4, 0, 0, 0, 0, 0, 0, 0]

/-- C2: evaluating both load paths on the 12-bit container.  `loadFile`
rejects it with `UnsupportedFormat` and leaves the state untouched, as the
claim requires — but `loadFromMemory` has no bits-per-sample check at all:
it accepts the file, reports `WavError.None`, and commits a 4-frame
all-zero buffer with `bitsPerSample = 12`. -/
theorem C2_memory_path_skips_bits_check :
    (WavPlayer.loadFromMemory WavPlayer.init bits12Wav).2 = WavError.None ∧
    (WavPlayer.loadFromMemory WavPlayer.init bits12Wav).1.bitsPerSample = 12 ∧
    (WavPlayer.loadFromMemory WavPlayer.init bits12Wav).1.numSamples = 4 ∧
    (WavPlayer.loadFromMemory WavPlayer.init bits12Wav).1.audioData = [0, 0, 0, 0] ∧
    (WavPlayer.loadFile WavPlayer.init "x" (some bits12Wav)).2 = WavError.UnsupportedFormat ∧
    (WavPlayer.loadFile WavPlayer.init "x" (some bits12Wav)).1 = WavPlayer.init := by
  refine ⟨?_, ?_, ?_, ?_, ?_, ?_⟩ <;>
    simp [WavPlayer.loadFromMemory, WavPlayer.loadFile, WavPlayer.scanChunksMem,
      WavPlayer.scanChunksFile, WavPlayer.readAndConvertSamples,
      WavPlayer.convertSamplesFromMemory, WavPlayer.convertStoredSample,
      WavPlayer.convertSample, bits12Wav, readU16, readU32, WavPlayer.ScanState.start,
      FmtInfo.zero, WavPlayer.riffTag, WavPlayer.waveTag, WavPlayer.fmtTag,
      WavPlayer.dataTag, List.range_succ]

/-- A complete WAV container whose format chunk declares the extensible
wrapper code 0xFFFE, 1 channel, 44100 Hz, 16 bits, with a 4-byte (2-frame)
data payload. -/
def extensibleWav : List ℕ :=
  [82, 73, 70, 70, 40, 0, 0, 0, 87, 65, 86, 69,
   102, 109, 116, 32, 16, 0, 0, 0, 254, 255, 1, 0, 68, 172, 0, 0, 0, 0, 0, 0, 2, 0, 16, 0,
   100, 97, 116, 97, 4, 0, 0, 0, 0, 0, 0, 0]

/-- C3, counterexample: `loadFromMemory` rejects the extensible wrapper code
0xFFFE as `UnsupportedFormat` — the claim that both load operations accept
it at the top level is false. -/
theorem C3_counterexample :
    (WavPlayer.loadFromMemory WavPlayer.init extensibleWav).2 =
      WavError.UnsupportedFormat := by
  simp [WavPlayer.loadFromMemory, WavPlayer.scanChunksMem, extensibleWav, readU16,
    readU32, WavPlayer.ScanState.start, FmtInfo.zero, WavPlayer.riffTag,
    WavPlayer.waveTag, WavPlayer.fmtTag, WavPlayer.dataTag]

/-- C3, amended: `loadFile` accepts a container whose format code is the
extensible wrapper 0xFFFE at the top level (committing it without examining
any sub-format), while `loadFromMemory` lacks the extensible exception and
rejects the same container as `UnsupportedFormat`, leaving the state
untouched — whatever the prior state. -/
theorem C3_extensible_top_level (s : PlayerState) :
    (WavPlayer.loadFile s "x" (some extensibleWav)).2 = WavError.None ∧
    (WavPlayer.loadFile s "x" (some extensibleWav)).1.numSamples = 2 ∧
    (WavPlayer.loadFile s "x" (some extensibleWav)).1.bitsPerSample = 16 ∧
    (WavPlayer.loadFromMemory s extensibleWav).2 = WavError.UnsupportedFormat ∧
    (WavPlayer.loadFromMemory s extensibleWav).1 = s := by
  refine ⟨?_, ?_, ?_, ?_, ?_⟩ <;>
    simp [WavPlayer.loadFromMemory, WavPlayer.loadFile, WavPlayer.scanChunksMem,
      WavPlayer.scanChunksFile, WavPlayer.readAndConvertSamples,
      WavPlayer.convertSamplesFromMemory, WavPlayer.convertStoredSample,
      WavPlayer.convertSample, extensibleWav, readU16, readU32,
      WavPlayer.ScanState.start, FmtInfo.zero, WavPlayer.riffTag, WavPlayer.waveTag,
      WavPlayer.fmtTag, WavPlayer.dataTag, List.range_succ]

end ShortwavDSP
